import Mathlib

/-!
Verification of the trigger/frame reconciliation engine of the
iox2_gsml_time_sync repository.

The engine lives in two Rust binaries:

* `src/bin/subscriber.rs` — the pull-loop variant: drains trigger events
  from the bus into a bounded `VecDeque` of pending triggers, then matches
  a simulated V4L2 frame timestamp against the queue.
* `src/bin/v4l2_capture.rs` — the callback-driven variant: the same push
  and matching logic inside `CameraApp::capture_frame` /
  `CameraApp::sync_frame_with_trigger`.

Shallow-embedding conventions used throughout this file:

* Rust `u64` timestamps are modelled as `Nat`; the one place where the
  source performs a `u64` subtraction that can underflow
  (`v4l2_timestamp_ns - hw_ts` in the latency computation) is modelled
  explicitly with wrap-around modulo `2 ^ 64` (`u64_wrapping_sub`), the
  behaviour of a release build; a debug build panics at the same spot.
* Rust `f64` expressions are modelled as exact rationals (`ℚ`).  Every
  float the engine computes is of the form `n / 10^6` or `2 * n / 10^6`
  with `n` a timestamp difference in nanoseconds, and the comparisons in
  the matcher (`< 500.0`, `score < best_score`) are exact at those values
  for all inputs below 2^53 ns, so the rational model coincides with the
  IEEE semantics on the intended input range.  `f64::MAX`, the sentinel
  initial value of `best_score`, is the exact rational value of that
  constant.
* The `VecDeque<CameraTrigger>` is modelled as a `List` whose head is the
  front of the deque.
-/

/-- The trigger sample type: Rust `type CameraTrigger = (u64, u64, u64)`
with components `(trigger_id, hardware_timestamp_ns, publish_timestamp_ns)`,
named after the destructuring patterns used at every use site. -/
structure CameraTrigger where
  trigger_id : Nat
  hw_ts : Nat
  pub_ts : Nat
deriving DecidableEq

/-- The synchronized record assembled on a successful match (the fields of
the `SYNCED` report in both call sites).  `is_past` models the
`trigger_type` string: `true` for `"PAST"`, `false` for `"FUTURE"`. -/
structure SyncResult where
  trigger_id : Nat
  hw_ts : Nat
  v4l2_timestamp_ns : Nat
  total_latency_ms : ℚ
  v4l2_delay_ms : ℚ
  score_ms : ℚ
  cleaned_count : Nat
  is_past : Bool
deriving DecidableEq

/-- Wrapping `u64` subtraction, the release-build semantics of `a - b` on
`u64` when `b > a` (a debug build panics instead): representatives are
reduced modulo `2 ^ 64` and the difference is taken there. -/
def u64_wrapping_sub (a b : Nat) : Nat :=
  (a % 2 ^ 64 + (2 ^ 64 - b % 2 ^ 64)) % 2 ^ 64

/-- The exact rational value of `f64::MAX`, the initial value of
`best_score` in both matching loops. -/
def f64_MAX : ℚ := ((2 ^ 1024 - 2 ^ 971 : Nat) : ℚ)

/-- Absolute timestamp difference in nanoseconds: the `time_diff_ns`
branch `if v4l2_timestamp_ns > *hw_ts { v4l2 - hw } else { hw - v4l2 }`
from both matching loops. -/
def time_diff_ns (v4l2_timestamp_ns hw_ts : Nat) : Nat :=
  if v4l2_timestamp_ns > hw_ts then v4l2_timestamp_ns - hw_ts
  else hw_ts - v4l2_timestamp_ns

/-- Millisecond difference `time_diff_ns as f64 / 1_000_000.0`. -/
def time_diff_ms (v4l2_timestamp_ns hw_ts : Nat) : ℚ :=
  (time_diff_ns v4l2_timestamp_ns hw_ts : ℚ) / 1000000

/-- The `is_past_trigger = *hw_ts < v4l2_timestamp_ns` test. -/
def is_past_trigger (hw_ts v4l2_timestamp_ns : Nat) : Bool :=
  decide (hw_ts < v4l2_timestamp_ns)

/-- Candidate score: `time_diff_ms` for past triggers, `time_diff_ms * 2.0`
for future triggers. -/
def score (v4l2_timestamp_ns hw_ts : Nat) : ℚ :=
  if is_past_trigger hw_ts v4l2_timestamp_ns then
    time_diff_ms v4l2_timestamp_ns hw_ts
  else
    time_diff_ms v4l2_timestamp_ns hw_ts * 2

/-- The body of the candidate-selection `for` loop of
`subscriber.rs:101-123` / `v4l2_capture.rs:203-222`: walk the pending
queue carrying `(best_match_index, best_score)`, replacing the best
candidate whenever `score < best_score && time_diff_ms < 500.0`.
The two local floats of the loop body are inlined at their single uses. -/
def find_best_from (v4l2_timestamp_ns : Nat) :
    Nat → Option Nat × ℚ → List CameraTrigger → Option Nat × ℚ
  | _, acc, [] => acc
  | index, acc, trig :: rest =>
    find_best_from v4l2_timestamp_ns (index + 1)
      (if score v4l2_timestamp_ns trig.hw_ts < acc.2 ∧
          time_diff_ms v4l2_timestamp_ns trig.hw_ts < 500 then
        (some index, score v4l2_timestamp_ns trig.hw_ts)
      else acc) rest

/-- Candidate selection over the whole queue, starting from
`best_match_index = None`, `best_score = f64::MAX`. -/
def findBestMatch (v4l2_timestamp_ns : Nat) (pending_triggers : List CameraTrigger) :
    Option Nat × ℚ :=
  find_best_from v4l2_timestamp_ns 0 (none, f64_MAX) pending_triggers

/-- The cleanup loop `for _ in 0..removed_old_count { pending_triggers.pop_front() }`. -/
def pop_front_n : Nat → List CameraTrigger → List CameraTrigger
  | 0, q => q
  | _ + 1, [] => []
  | n + 1, _ :: rest => pop_front_n n rest

/-- `CameraApp::sync_frame_with_trigger` from `v4l2_capture.rs:199-250`
(the frame payload argument is opaque to the matching logic and omitted):
select the best candidate; on a match, `remove(match_index)` it, pop the
`match_index` triggers in front of it, and assemble the synchronized
record; on no match, report the unmatched frame and leave the queue
untouched. -/
def sync_frame_with_trigger (v4l2_timestamp_ns : Nat)
    (pending_triggers : List CameraTrigger) :
    Option SyncResult × List CameraTrigger :=
  match findBestMatch v4l2_timestamp_ns pending_triggers with
  | (some match_index, best_score) =>
    match pending_triggers.get? match_index with
    | some t =>
      (some {
        trigger_id := t.trigger_id
        hw_ts := t.hw_ts
        v4l2_timestamp_ns := v4l2_timestamp_ns
        total_latency_ms := (u64_wrapping_sub v4l2_timestamp_ns t.hw_ts : ℚ) / 1000000
        v4l2_delay_ms := (u64_wrapping_sub v4l2_timestamp_ns t.pub_ts : ℚ) / 1000000
        score_ms := best_score
        cleaned_count := match_index
        is_past := is_past_trigger t.hw_ts v4l2_timestamp_ns },
       pop_front_n match_index (pending_triggers.eraseIdx match_index))
    | none => (none, pending_triggers)
  | (none, _) => (none, pending_triggers)

/-- The duplicated candidate-selection loop of `subscriber.rs:98-123`,
transcribed from that call site independently of `find_best_from`. -/
def subscriber_find_best_from (v4l2_timestamp_ns : Nat) :
    Nat → Option Nat × ℚ → List CameraTrigger → Option Nat × ℚ
  | _, acc, [] => acc
  | index, acc, trig :: rest =>
    subscriber_find_best_from v4l2_timestamp_ns (index + 1)
      (if score v4l2_timestamp_ns trig.hw_ts < acc.2 ∧
          time_diff_ms v4l2_timestamp_ns trig.hw_ts < 500 then
        (some index, score v4l2_timestamp_ns trig.hw_ts)
      else acc) rest

/-- The duplicated match-and-cleanup block of `subscriber.rs:98-151`,
transcribed from that call site independently of
`sync_frame_with_trigger`. -/
def subscriber_match_frame (v4l2_timestamp_ns : Nat)
    (pending_triggers : List CameraTrigger) :
    Option SyncResult × List CameraTrigger :=
  match subscriber_find_best_from v4l2_timestamp_ns 0 (none, f64_MAX) pending_triggers with
  | (some match_index, best_score) =>
    match pending_triggers.get? match_index with
    | some t =>
      (some {
        trigger_id := t.trigger_id
        hw_ts := t.hw_ts
        v4l2_timestamp_ns := v4l2_timestamp_ns
        total_latency_ms := (u64_wrapping_sub v4l2_timestamp_ns t.hw_ts : ℚ) / 1000000
        v4l2_delay_ms := (u64_wrapping_sub v4l2_timestamp_ns t.pub_ts : ℚ) / 1000000
        score_ms := best_score
        cleaned_count := match_index
        is_past := is_past_trigger t.hw_ts v4l2_timestamp_ns },
       pop_front_n match_index (pending_triggers.eraseIdx match_index))
    | none => (none, pending_triggers)
  | (none, _) => (none, pending_triggers)

/-- The bounded push of `subscriber.rs:74-81`: `push_back`, then if the
length exceeds 100, `pop_front` the oldest trigger and report it as
evicted. -/
def pushTrigger (pending_triggers : List CameraTrigger) (trigger : CameraTrigger) :
    List CameraTrigger × Option CameraTrigger :=
  if (pending_triggers ++ [trigger]).length > 100 then
    match pending_triggers ++ [trigger] with
    | [] => ([], none)
    | old :: rest => (rest, some old)
  else (pending_triggers ++ [trigger], none)

/-- The bounded push of `v4l2_capture.rs:142-149`, transcribed from that
call site independently of `pushTrigger`. -/
def capture_push_trigger (pending_triggers : List CameraTrigger) (trigger : CameraTrigger) :
    List CameraTrigger × Option CameraTrigger :=
  if (pending_triggers ++ [trigger]).length > 100 then
    match pending_triggers ++ [trigger] with
    | [] => ([], none)
    | old :: rest => (rest, some old)
  else (pending_triggers ++ [trigger], none)

/-- The live drain loop `while let Some(trigger) = subscriber.receive()?`
of `subscriber.rs:69-82` (and `v4l2_capture.rs:138-150`), applied to the
list of events the bus currently has available: push every received
trigger through the bounded push, collecting the evicted triggers in
order. -/
def receive_all : List CameraTrigger → List CameraTrigger →
    List CameraTrigger × List CameraTrigger
  | q, [] => (q, [])
  | q, t :: rest =>
    ((receive_all (pushTrigger q t).1 rest).1,
     (pushTrigger q t).2.toList ++ (receive_all (pushTrigger q t).1 rest).2)

/-- The startup history-replay drain of `subscriber.rs:57-65`: every
historical trigger is appended with a bare `push_back` — the length cap of
the live path is never consulted — while counting the drained events. -/
def drain_historical_subscriber : List CameraTrigger → List CameraTrigger →
    List CameraTrigger × Nat
  | q, [] => (q, 0)
  | q, t :: rest =>
    ((drain_historical_subscriber (q ++ [t]) rest).1,
     (drain_historical_subscriber (q ++ [t]) rest).2 + 1)

/-- The startup history-replay drain of `v4l2_capture.rs:124-129`: the
drained triggers are only counted; none of them is inserted into the
pending queue. -/
def drain_historical_capture : List CameraTrigger → List CameraTrigger →
    List CameraTrigger × Nat
  | q, [] => (q, 0)
  | q, _ :: rest =>
    ((drain_historical_capture q rest).1,
     (drain_historical_capture q rest).2 + 1)

/-- One input consumed by the reconciliation loop: either a trigger event
delivered by the bus or a frame processed at a given arrival timestamp. -/
inductive BusItem where
  | trig : CameraTrigger → BusItem
  | frame : Nat → BusItem
deriving DecidableEq

/-- The pull-loop deployment variant (`subscriber.rs` main loop) run over
a sequence of inputs: triggers go through the subscriber's bounded push;
a frame is matched by the subscriber's inline matching block, guarded by
the loop's `if !pending_triggers.is_empty()` check — on an empty queue the
subscriber takes no frame, recorded as a `none` outcome with the queue
untouched.  Returns the final queue and the per-frame outcomes. -/
def run_subscriber : List CameraTrigger → List BusItem →
    List CameraTrigger × List (Option SyncResult)
  | q, [] => (q, [])
  | q, BusItem.trig t :: rest => run_subscriber (pushTrigger q t).1 rest
  | q, BusItem.frame v :: rest =>
    if q.isEmpty then
      ((run_subscriber q rest).1, none :: (run_subscriber q rest).2)
    else
      ((run_subscriber (subscriber_match_frame v q).2 rest).1,
       (subscriber_match_frame v q).1 ::
         (run_subscriber (subscriber_match_frame v q).2 rest).2)

/-- The callback-driven deployment variant (`v4l2_capture.rs`,
`capture_frame` invoked once per rendering callback, with
`should_process = true`, the value it takes whenever
`output_fps ≥ input_fps`) run over the same kind of input sequence:
triggers go through the capture-side bounded push and every frame is
handed to `sync_frame_with_trigger`. -/
def run_capture : List CameraTrigger → List BusItem →
    List CameraTrigger × List (Option SyncResult)
  | q, [] => (q, [])
  | q, BusItem.trig t :: rest => run_capture (capture_push_trigger q t).1 rest
  | q, BusItem.frame v :: rest =>
    ((run_capture (sync_frame_with_trigger v q).2 rest).1,
     (sync_frame_with_trigger v q).1 ::
       (run_capture (sync_frame_with_trigger v q).2 rest).2)

/-- Trigger list of Scenario D of the specification: ids 1..105, pushed
sequentially with no matches in between. -/
def scenario_d : List CameraTrigger :=
  (List.range 105).map (fun i => { trigger_id := i + 1, hw_ts := 0, pub_ts := 0 })

/-- A trigger list used by the startup-replay counterexample: a backlog of
101 historical triggers with ids 1..101. -/
def history_backlog : List CameraTrigger :=
  (List.range 101).map (fun i => { trigger_id := i + 1, hw_ts := 0, pub_ts := 0 })

theorem time_diff_ms_nonneg (v h : Nat) : 0 ≤ time_diff_ms v h := by
  unfold time_diff_ms
  positivity

theorem time_diff_ms_pos_of_past {v h : Nat} (hp : h < v) : 0 < time_diff_ms v h := by
  unfold time_diff_ms time_diff_ns
  rw [if_pos hp]
  have h1 : (0 : ℚ) < ((v - h : Nat) : ℚ) := by
    exact_mod_cast Nat.sub_pos_of_lt hp
  positivity

theorem score_of_past {v h : Nat} (hp : h < v) : score v h = time_diff_ms v h := by
  unfold score is_past_trigger
  simp [hp]

theorem score_of_future {v h : Nat} (hp : ¬ h < v) : score v h = time_diff_ms v h * 2 := by
  unfold score is_past_trigger
  simp [hp]

theorem score_lt_f64_MAX {v h : Nat} (he : time_diff_ms v h < 500) : score v h < f64_MAX := by
  have h0 := time_diff_ms_nonneg v h
  have hmax : (1000 : ℚ) < f64_MAX := by norm_num [f64_MAX]
  unfold score
  split
  · linarith
  · linarith

theorem find_best_from_some_persists (v : Nat) (l : List CameraTrigger) :
    ∀ (idx : Nat) (acc : Option Nat × ℚ), acc.1.isSome →
      (find_best_from v idx acc l).1.isSome := by
  induction l with
  | nil => intro idx acc h; simpa [find_best_from] using h
  | cons t rest ih =>
    intro idx acc h
    simp only [find_best_from]
    by_cases hc : score v t.hw_ts < acc.2 ∧ time_diff_ms v t.hw_ts < 500
    · rw [if_pos hc]; exact ih _ _ (by simp)
    · rw [if_neg hc]; exact ih _ _ h

theorem find_best_from_eq_of_none (v : Nat) (l : List CameraTrigger) :
    ∀ (idx : Nat) (acc : Option Nat × ℚ),
      (find_best_from v idx acc l).1 = none → find_best_from v idx acc l = acc := by
  induction l with
  | nil => intro idx acc _; simp [find_best_from]
  | cons t rest ih =>
    intro idx acc h
    simp only [find_best_from] at h ⊢
    by_cases hc : score v t.hw_ts < acc.2 ∧ time_diff_ms v t.hw_ts < 500
    · rw [if_pos hc] at h
      have := find_best_from_some_persists v rest (idx + 1)
        (some idx, score v t.hw_ts) (by simp)
      rw [h] at this
      simp at this
    · rw [if_neg hc] at h ⊢
      exact ih _ _ h

theorem find_best_from_score_le (v : Nat) (l : List CameraTrigger) :
    ∀ (idx : Nat) (acc : Option Nat × ℚ),
      (find_best_from v idx acc l).2 ≤ acc.2 := by
  induction l with
  | nil => intro idx acc; simp [find_best_from]
  | cons t rest ih =>
    intro idx acc
    simp only [find_best_from]
    by_cases hc : score v t.hw_ts < acc.2 ∧ time_diff_ms v t.hw_ts < 500
    · rw [if_pos hc]
      exact le_trans (ih _ _) (le_of_lt hc.1)
    · rw [if_neg hc]
      exact ih _ _

theorem find_best_from_le_of_eligible (v : Nat) (l : List CameraTrigger) :
    ∀ (idx : Nat) (acc : Option Nat × ℚ) (i : Nat) (t : CameraTrigger),
      l.get? i = some t → time_diff_ms v t.hw_ts < 500 →
      (find_best_from v idx acc l).2 ≤ score v t.hw_ts := by
  induction l with
  | nil => intro idx acc i t h _; simp at h
  | cons hd rest ih =>
    intro idx acc i t hget helig
    cases i with
    | zero =>
      simp only [List.get?_cons_zero, Option.some.injEq] at hget
      subst hget
      simp only [find_best_from]
      by_cases hc : score v hd.hw_ts < acc.2 ∧ time_diff_ms v hd.hw_ts < 500
      · rw [if_pos hc]
        exact find_best_from_score_le v rest _ _
      · rw [if_neg hc]
        have hle : acc.2 ≤ score v hd.hw_ts :=
          not_lt.mp (fun hlt => hc ⟨hlt, helig⟩)
        exact le_trans (find_best_from_score_le v rest _ _) hle
    | succ i =>
      simp only [List.get?_cons_succ] at hget
      simp only [find_best_from]
      by_cases hc : score v hd.hw_ts < acc.2 ∧ time_diff_ms v hd.hw_ts < 500
      · rw [if_pos hc]; exact ih _ _ i t hget helig
      · rw [if_neg hc]; exact ih _ _ i t hget helig

theorem find_best_from_last (v : Nat) (l : List CameraTrigger) :
    ∀ (idx : Nat) (acc : Option Nat × ℚ) (m : Nat),
      (find_best_from v idx acc l).1 = some m →
      (acc.1 = some m ∧ find_best_from v idx acc l = acc) ∨
      (∃ i t, l.get? i = some t ∧ m = idx + i ∧
        time_diff_ms v t.hw_ts < 500 ∧
        (find_best_from v idx acc l).2 = score v t.hw_ts ∧
        (find_best_from v idx acc l).2 < acc.2) := by
  induction l with
  | nil =>
    intro idx acc m h
    left
    exact ⟨by simpa [find_best_from] using h, by simp [find_best_from]⟩
  | cons hd rest ih =>
    intro idx acc m h
    simp only [find_best_from] at h ⊢
    by_cases hc : score v hd.hw_ts < acc.2 ∧ time_diff_ms v hd.hw_ts < 500
    · rw [if_pos hc] at h ⊢
      rcases ih _ _ m h with ⟨h1, h2⟩ | ⟨i, t, hget, hm, helig, hsc, hlt⟩
      · right
        refine ⟨0, hd, by simp, ?_, hc.2, ?_, ?_⟩
        · have : idx = m := by simpa using h1
          omega
        · rw [h2]
        · rw [h2]; exact hc.1
      · right
        refine ⟨i + 1, t, by simpa using hget, by omega, helig, hsc, ?_⟩
        exact lt_trans hlt hc.1
    · rw [if_neg hc] at h ⊢
      rcases ih _ _ m h with h' | ⟨i, t, hget, hm, helig, hsc, hlt⟩
      · left; exact h'
      · right
        exact ⟨i + 1, t, by simpa using hget, by omega, helig, hsc, hlt⟩

theorem find_best_from_lt_length (v : Nat) (q : List CameraTrigger) (m : Nat)
    (h : (findBestMatch v q).1 = some m) : m < q.length := by
  rcases find_best_from_last v q 0 (none, f64_MAX) m h with ⟨h1, _⟩ | ⟨i, t, hget, hm, _⟩
  · simp at h1
  · have hi := (List.get?_eq_some.mp hget).1
    omega

theorem find_best_from_min_before (v : Nat) (l : List CameraTrigger) :
    ∀ (idx : Nat) (acc : Option Nat × ℚ),
      (∀ k, acc.1 = some k → k < idx) →
      ∀ (m : Nat), (find_best_from v idx acc l).1 = some m →
      ∀ (i : Nat) (t : CameraTrigger), l.get? i = some t → idx + i < m →
        time_diff_ms v t.hw_ts < 500 →
        (find_best_from v idx acc l).2 < score v t.hw_ts := by
  induction l with
  | nil => intro idx acc _ m _ i t hget; simp at hget
  | cons hd rest ih =>
    intro idx acc hacc m hm i t hget hpos helig
    simp only [find_best_from] at hm ⊢
    by_cases hc : score v hd.hw_ts < acc.2 ∧ time_diff_ms v hd.hw_ts < 500
    · rw [if_pos hc] at hm ⊢
      cases i with
      | zero =>
        simp only [List.get?_cons_zero, Option.some.injEq] at hget
        subst hget
        rcases find_best_from_last v rest (idx + 1) _ m hm with
          ⟨h1, _⟩ | ⟨j, u, _, _, _, _, hlt2⟩
        · have : idx = m := by simpa using h1
          omega
        · exact hlt2
      | succ i =>
        simp only [List.get?_cons_succ] at hget
        exact ih (idx + 1) _ (by intro k hk; simp at hk; omega) m hm i t hget
          (by omega) helig
    · rw [if_neg hc] at hm ⊢
      cases i with
      | zero =>
        simp only [List.get?_cons_zero, Option.some.injEq] at hget
        subst hget
        have hle : acc.2 ≤ score v hd.hw_ts :=
          not_lt.mp (fun hlt => hc ⟨hlt, helig⟩)
        rcases find_best_from_last v rest (idx + 1) _ m hm with
          ⟨h1, _⟩ | ⟨j, u, _, _, _, _, hlt2⟩
        · have := hacc m h1
          omega
        · exact lt_of_lt_of_le hlt2 hle
      | succ i =>
        simp only [List.get?_cons_succ] at hget
        exact ih (idx + 1) _ (by intro k hk; exact lt_trans (hacc k hk) (by omega)) m hm
          i t hget (by omega) helig

theorem find_best_from_isSome_of_eligible (v : Nat) (l : List CameraTrigger) :
    ∀ (idx : Nat) (acc : Option Nat × ℚ),
      (acc.1 = none → acc.2 = f64_MAX) →
      ∀ (i : Nat) (t : CameraTrigger), l.get? i = some t →
        time_diff_ms v t.hw_ts < 500 →
      (find_best_from v idx acc l).1.isSome := by
  induction l with
  | nil => intro _ _ _ i t h; simp at h
  | cons hd rest ih =>
    intro idx acc hnone i t hget helig
    simp only [find_best_from]
    rcases hacc1 : acc.1 with _ | k
    · have hacc2 : acc.2 = f64_MAX := hnone hacc1
      cases i with
      | zero =>
        simp only [List.get?_cons_zero, Option.some.injEq] at hget
        subst hget
        rw [if_pos ⟨by rw [hacc2]; exact score_lt_f64_MAX helig, helig⟩]
        exact find_best_from_some_persists v rest _ _ (by simp)
      | succ i =>
        simp only [List.get?_cons_succ] at hget
        by_cases hc : score v hd.hw_ts < acc.2 ∧ time_diff_ms v hd.hw_ts < 500
        · rw [if_pos hc]
          exact find_best_from_some_persists v rest _ _ (by simp)
        · rw [if_neg hc]
          exact ih _ _ hnone i t hget helig
    · by_cases hc : score v hd.hw_ts < acc.2 ∧ time_diff_ms v hd.hw_ts < 500
      · rw [if_pos hc]
        exact find_best_from_some_persists v rest _ _ (by simp)
      · rw [if_neg hc]
        exact find_best_from_some_persists v rest _ _ (by simp [hacc1])

theorem pop_front_n_eq_drop : ∀ (n : Nat) (l : List CameraTrigger),
    pop_front_n n l = l.drop n := by
  intro n
  induction n with
  | zero => intro l; cases l <;> rfl
  | succ n ih => intro l; cases l with
    | nil => rfl
    | cons hd rest => simpa [pop_front_n] using ih rest

theorem eraseIdx_then_drop {q : List CameraTrigger} {m : Nat} (h : m < q.length) :
    (q.eraseIdx m).drop m = q.drop (m + 1) := by
  rw [List.eraseIdx_eq_take_drop_succ]
  have hlen : (q.take m).length = m := by
    rw [List.length_take]
    omega
  have hd := List.drop_left (q.take m) (q.drop (m + 1))
  rw [hlen] at hd
  exact hd

theorem sync_match_eq (v : Nat) (q : List CameraTrigger) (m : Nat) (s : ℚ)
    (h : findBestMatch v q = (some m, s)) :
    ∃ t, q.get? m = some t ∧ time_diff_ms v t.hw_ts < 500 ∧ s = score v t.hw_ts ∧
      sync_frame_with_trigger v q =
        (some { trigger_id := t.trigger_id, hw_ts := t.hw_ts,
                v4l2_timestamp_ns := v,
                total_latency_ms := (u64_wrapping_sub v t.hw_ts : ℚ) / 1000000,
                v4l2_delay_ms := (u64_wrapping_sub v t.pub_ts : ℚ) / 1000000,
                score_ms := s, cleaned_count := m,
                is_past := is_past_trigger t.hw_ts v },
         q.drop (m + 1)) := by
  have h1 : (findBestMatch v q).1 = some m := by rw [h]
  rcases find_best_from_last v q 0 (none, f64_MAX) m h1 with ⟨hbad, _⟩ |
    ⟨i, t, hget, hm, helig, hsc, _⟩
  · simp at hbad
  · have him : m = i := by omega
    subst him
    refine ⟨t, hget, helig, ?_, ?_⟩
    · have h2 : (findBestMatch v q).2 = score v t.hw_ts := hsc
      rw [h] at h2
      exact h2
    · have hlen : m < q.length := (List.get?_eq_some.mp hget).1
      unfold sync_frame_with_trigger
      rw [h]
      simp only [hget]
      rw [pop_front_n_eq_drop, eraseIdx_then_drop hlen]

theorem sync_nil (v : Nat) : sync_frame_with_trigger v [] = (none, []) := rfl

theorem sync_none_of_no_best (v : Nat) (q : List CameraTrigger) (s : ℚ)
    (h : findBestMatch v q = (none, s)) :
    sync_frame_with_trigger v q = (none, q) := by
  unfold sync_frame_with_trigger
  rw [h]

theorem sync_some_inv {v : Nat} {q q' : List CameraTrigger} {r : SyncResult}
    (h : sync_frame_with_trigger v q = (some r, q')) :
    findBestMatch v q = (some r.cleaned_count, r.score_ms) ∧
      r.cleaned_count < q.length ∧
      q' = q.drop (r.cleaned_count + 1) := by
  rcases hfb : findBestMatch v q with ⟨ob, s⟩
  cases ob with
  | none =>
    rw [sync_none_of_no_best v q s hfb] at h
    simp at h
  | some m =>
    obtain ⟨t, hget, _, _, hsync⟩ := sync_match_eq v q m s hfb
    rw [hsync] at h
    rw [Prod.mk.injEq] at h
    obtain ⟨h1, h2⟩ := h
    have hr := Option.some.inj h1
    subst hr
    exact ⟨rfl, (List.get?_eq_some.mp hget).1, h2.symm⟩

theorem subscriber_find_best_from_eq (v : Nat) (l : List CameraTrigger) :
    ∀ (idx : Nat) (acc : Option Nat × ℚ),
      subscriber_find_best_from v idx acc l = find_best_from v idx acc l := by
  induction l with
  | nil => intro idx acc; rfl
  | cons hd rest ih =>
    intro idx acc
    simp only [subscriber_find_best_from, find_best_from]
    exact ih _ _

theorem subscriber_match_frame_eq (v : Nat) (q : List CameraTrigger) :
    subscriber_match_frame v q = sync_frame_with_trigger v q := by
  unfold subscriber_match_frame sync_frame_with_trigger findBestMatch
  rw [subscriber_find_best_from_eq]

theorem capture_push_trigger_eq (q : List CameraTrigger) (t : CameraTrigger) :
    capture_push_trigger q t = pushTrigger q t := rfl

theorem pushTrigger_of_lt {q : List CameraTrigger} (t : CameraTrigger)
    (h : q.length < 100) : pushTrigger q t = (q ++ [t], none) := by
  unfold pushTrigger
  rw [if_neg]
  simp
  omega

theorem pushTrigger_of_full {a : CameraTrigger} {q₀ : List CameraTrigger}
    (t : CameraTrigger) (h : (a :: q₀).length = 100) :
    pushTrigger (a :: q₀) t = (q₀ ++ [t], some a) := by
  unfold pushTrigger
  rw [if_pos]
  · rfl
  · simp at h ⊢
    omega

theorem receive_all_spec (es : List CameraTrigger) :
    ∀ (q : List CameraTrigger), q.length ≤ 100 →
      receive_all q es =
        ((q ++ es).drop (q.length + es.length - 100),
         (q ++ es).take (q.length + es.length - 100)) := by
  induction es with
  | nil =>
    intro q hq
    have h0 : q.length + ([] : List CameraTrigger).length - 100 = 0 := by simp; omega
    simp only [receive_all, h0, List.append_nil, List.drop_zero, List.take_zero]
  | cons t rest ih =>
    intro q hq
    by_cases hfull : q.length = 100
    · match q, hfull with
      | a :: q₀, hfull =>
        have hpush := pushTrigger_of_full t hfull
        have hlen : (q₀ ++ [t]).length = 100 := by
          simp at hfull ⊢
          omega
        simp only [receive_all, hpush, Option.toList_some]
        rw [ih (q₀ ++ [t]) (le_of_eq hlen)]
        have ha1 : (q₀ ++ [t]).length + rest.length - 100 = rest.length := by
          rw [hlen]
          omega
        have ha2 : (a :: q₀).length + (t :: rest).length - 100 = rest.length + 1 := by
          simp at hfull ⊢
          omega
        rw [ha1, ha2]
        have happ : (q₀ ++ [t]) ++ rest = q₀ ++ t :: rest := by
          rw [List.append_assoc, List.singleton_append]
        rw [happ]
        have hcons : (a :: q₀) ++ t :: rest = a :: (q₀ ++ t :: rest) := rfl
        rw [hcons, List.drop_succ_cons, List.take_succ_cons]
        rfl
    · have hlt : q.length < 100 := lt_of_le_of_ne hq hfull
      have hpush := pushTrigger_of_lt t hlt
      simp only [receive_all, hpush, Option.toList_none, List.nil_append]
      rw [ih (q ++ [t]) (by simp; omega)]
      have happ : (q ++ [t]) ++ rest = q ++ t :: rest := by
        rw [List.append_assoc, List.singleton_append]
      have ha : (q ++ [t]).length + rest.length = q.length + (t :: rest).length := by
        simp
        omega
      rw [happ, ha]

theorem drain_historical_subscriber_spec (es : List CameraTrigger) :
    ∀ (q : List CameraTrigger),
      drain_historical_subscriber q es = (q ++ es, es.length) := by
  induction es with
  | nil => intro q; simp [drain_historical_subscriber]
  | cons t rest ih =>
    intro q
    simp only [drain_historical_subscriber, ih (q ++ [t]), List.append_assoc,
      List.singleton_append, List.length_cons]

theorem drain_historical_capture_spec (es : List CameraTrigger) :
    ∀ (q : List CameraTrigger),
      drain_historical_capture q es = (q, es.length) := by
  induction es with
  | nil => intro q; simp [drain_historical_capture]
  | cons t rest ih =>
    intro q
    simp only [drain_historical_capture, ih q, List.length_cons]

/-- C3: the pull-loop deployment variant and the callback-driven deployment
variant, given identical sequences of trigger events and frame arrival
timestamps, produce identical matching decisions — the same matched trigger
or the same unmatched outcome for every frame, with the same cleanup and
the same final pending queue. -/
theorem pull_and_callback_variants_agree (items : List BusItem) :
    ∀ (q : List CameraTrigger), run_subscriber q items = run_capture q items := by
  induction items with
  | nil => intro q; rfl
  | cons item rest ih =>
    intro q
    cases item with
    | trig t =>
      simp only [run_subscriber, run_capture, capture_push_trigger_eq]
      exact ih _
    | frame v =>
      by_cases hq : q.isEmpty
      · have hqnil : q = [] := by
          cases q
          · rfl
          · simp at hq
        subst hqnil
        simp only [run_subscriber, run_capture, List.isEmpty_nil, if_true, sync_nil]
        rw [ih []]
      · have hq' : ¬ (q.isEmpty = true) := hq
        simp only [run_subscriber, run_capture, if_neg hq', subscriber_match_frame_eq]
        rw [ih ((sync_frame_with_trigger v q).2)]

/-- C7: whenever matching returns no result — no eligible candidate within
tolerance, including the empty-queue case — the pending-trigger queue is
left exactly as it was before the matching attempt. -/
theorem no_match_no_mutation (v : Nat) (q : List CameraTrigger)
    (h : (sync_frame_with_trigger v q).1 = none) :
    (sync_frame_with_trigger v q).2 = q := by
  rcases hfb : findBestMatch v q with ⟨ob, s⟩
  cases ob with
  | none => rw [sync_none_of_no_best v q s hfb]
  | some m =>
    obtain ⟨t, _, _, _, hsync⟩ := sync_match_eq v q m s hfb
    rw [hsync] at h
    simp at h

/-- Witness for C7 at Scenario B of the specification: a single pending
trigger 700 ms older than the frame is out of tolerance, no match is
reported, and the queue still holds that trigger afterwards. -/
theorem no_match_no_mutation_witness :
    (sync_frame_with_trigger 2700000000
      [{ trigger_id := 5, hw_ts := 2000000000, pub_ts := 2000000000 }]).1 = none ∧
    (sync_frame_with_trigger 2700000000
      [{ trigger_id := 5, hw_ts := 2000000000, pub_ts := 2000000000 }]).2 =
      [{ trigger_id := 5, hw_ts := 2000000000, pub_ts := 2000000000 }] :=
  ⟨by norm_num [sync_frame_with_trigger, findBestMatch, find_best_from, score,
      time_diff_ms, time_diff_ns, is_past_trigger, f64_MAX],
   no_match_no_mutation 2700000000
     [{ trigger_id := 5, hw_ts := 2000000000, pub_ts := 2000000000 }]
     (by norm_num [sync_frame_with_trigger, findBestMatch, find_best_from, score,
       time_diff_ms, time_diff_ns, is_past_trigger, f64_MAX])⟩

/-- C4: a candidate whose raw absolute time difference is at least 500 ms
is never selected as the match, regardless of its computed score: whatever
index the selection loop reports, the trigger stored at that index is
strictly within the 500 ms tolerance. -/
theorem tolerance_never_selected (v : Nat) (q : List CameraTrigger) (m : Nat) (s : ℚ)
    (t : CameraTrigger) (h : findBestMatch v q = (some m, s))
    (hget : q.get? m = some t) : time_diff_ms v t.hw_ts < 500 := by
  have h1 : (findBestMatch v q).1 = some m := by rw [h]
  rcases find_best_from_last v q 0 (none, f64_MAX) m h1 with ⟨hbad, _⟩ |
    ⟨i, t', hget', hm, helig, _, _⟩
  · simp at hbad
  · have him : m = i := by omega
    subst him
    rw [hget] at hget'
    rw [Option.some.inj hget']
    exact helig

/-- Witness for C4 at Scenario A of the specification: the matched trigger
(id 2, 17 ms before the frame) is within tolerance. -/
theorem tolerance_never_selected_witness :
    time_diff_ms 1050000000 1033000000 < 500 :=
  tolerance_never_selected 1050000000
    [{ trigger_id := 1, hw_ts := 1000000000, pub_ts := 1000000000 },
     { trigger_id := 2, hw_ts := 1033000000, pub_ts := 1033000000 }] 1 17
    { trigger_id := 2, hw_ts := 1033000000, pub_ts := 1033000000 }
    (by norm_num [findBestMatch, find_best_from, score, time_diff_ms, time_diff_ns,
      is_past_trigger, f64_MAX]) rfl

/-- C6: after every successful match, no element earlier in queue order
than the matched element remains — every position of the post-match queue
holds the trigger that was at that position plus `cleaned_count + 1` in the
pre-match queue, so the elements formerly at positions `0..cleaned_count`
are all gone. -/
theorem cleanup_completeness (v : Nat) (q q' : List CameraTrigger) (r : SyncResult)
    (h : sync_frame_with_trigger v q = (some r, q')) (j : Nat) :
    q'.get? j = q.get? (r.cleaned_count + 1 + j) := by
  obtain ⟨_, _, hq⟩ := sync_some_inv h
  rw [hq, List.get?_drop]

/-- Witness for C6 at Scenario A of the specification: after trigger id 2
at index 1 is matched, the queue is empty and in particular holds nothing
from the former positions 0 and 1. -/
theorem cleanup_completeness_witness :
    ([] : List CameraTrigger).get? 0 =
      [{ trigger_id := 1, hw_ts := 1000000000, pub_ts := 1000000000 },
       { trigger_id := 2, hw_ts := 1033000000, pub_ts := 1033000000 }].get? 2 :=
  cleanup_completeness 1050000000
    [{ trigger_id := 1, hw_ts := 1000000000, pub_ts := 1000000000 },
     { trigger_id := 2, hw_ts := 1033000000, pub_ts := 1033000000 }] []
    { trigger_id := 2, hw_ts := 1033000000, v4l2_timestamp_ns := 1050000000,
      total_latency_ms := 17, v4l2_delay_ms := 17, score_ms := 17,
      cleaned_count := 1, is_past := true }
    (by norm_num [sync_frame_with_trigger, findBestMatch, find_best_from, score,
      time_diff_ms, time_diff_ns, is_past_trigger, f64_MAX, u64_wrapping_sub,
      pop_front_n, List.eraseIdx]) 0

/-- C10: on every successful match the reported cleaned count is exactly
the matched element's original queue index, the queue shrinks by exactly
`cleaned_count + 1` elements, and the post-match queue is precisely the
suffix of the pre-match queue after the matched position, unchanged and in
order. -/
theorem match_frame_effect (v : Nat) (q q' : List CameraTrigger) (r : SyncResult)
    (h : sync_frame_with_trigger v q = (some r, q')) :
    (findBestMatch v q).1 = some r.cleaned_count ∧
    q' = q.drop (r.cleaned_count + 1) ∧
    q'.length + (r.cleaned_count + 1) = q.length := by
  obtain ⟨hfb, hlt, hq⟩ := sync_some_inv h
  refine ⟨by rw [hfb], hq, ?_⟩
  rw [hq, List.length_drop]
  omega

/-- Witness for C10 at Scenario A of the specification: the match at
index 1 reports cleaned count 1, and the two-element queue shrinks to the
empty suffix after index 1. -/
theorem match_frame_effect_witness :
    (findBestMatch 1050000000
      [{ trigger_id := 1, hw_ts := 1000000000, pub_ts := 1000000000 },
       { trigger_id := 2, hw_ts := 1033000000, pub_ts := 1033000000 }]).1 = some 1 ∧
    ([] : List CameraTrigger) =
      [{ trigger_id := 1, hw_ts := 1000000000, pub_ts := 1000000000 },
       { trigger_id := 2, hw_ts := 1033000000, pub_ts := 1033000000 }].drop 2 ∧
    ([] : List CameraTrigger).length + 2 =
      ([{ trigger_id := 1, hw_ts := 1000000000, pub_ts := 1000000000 },
        { trigger_id := 2, hw_ts := 1033000000, pub_ts := 1033000000 }] :
        List CameraTrigger).length :=
  match_frame_effect 1050000000
    [{ trigger_id := 1, hw_ts := 1000000000, pub_ts := 1000000000 },
     { trigger_id := 2, hw_ts := 1033000000, pub_ts := 1033000000 }] []
    { trigger_id := 2, hw_ts := 1033000000, v4l2_timestamp_ns := 1050000000,
      total_latency_ms := 17, v4l2_delay_ms := 17, score_ms := 17,
      cleaned_count := 1, is_past := true }
    (by norm_num [sync_frame_with_trigger, findBestMatch, find_best_from, score,
      time_diff_ms, time_diff_ns, is_past_trigger, f64_MAX, u64_wrapping_sub,
      pop_front_n, List.eraseIdx])

/-- C8: whenever the queue holds a past candidate and a future candidate
with equal raw millisecond difference, both within tolerance, the
selection loop returns a match and never returns the future candidate's
index, regardless of queue positions — the future candidate's score is
doubled while the past candidate keeps its raw difference. -/
theorem past_preference (v : Nat) (q : List CameraTrigger) (i j : Nat)
    (tp tf : CameraTrigger) (hi : q.get? i = some tp) (hj : q.get? j = some tf)
    (hpast : tp.hw_ts < v) (hfut : ¬ tf.hw_ts < v)
    (heq : time_diff_ms v tp.hw_ts = time_diff_ms v tf.hw_ts)
    (htol : time_diff_ms v tp.hw_ts < 500) :
    (findBestMatch v q).1.isSome ∧ (findBestMatch v q).1 ≠ some j := by
  have hsome : (findBestMatch v q).1.isSome :=
    find_best_from_isSome_of_eligible v q 0 (none, f64_MAX) (fun _ => rfl) i tp hi htol
  refine ⟨hsome, ?_⟩
  intro hj'
  rcases find_best_from_last v q 0 (none, f64_MAX) j hj' with ⟨hbad, _⟩ |
    ⟨i', t', hget', hm, _, hsc, _⟩
  · simp at hbad
  · have hii : j = i' := by omega
    subst hii
    rw [hj] at hget'
    have ht' : tf = t' := Option.some.inj hget'
    subst ht'
    have hle := find_best_from_le_of_eligible v q 0 (none, f64_MAX) i tp hi htol
    have hsp : score v tp.hw_ts = time_diff_ms v tp.hw_ts := score_of_past hpast
    have hsf : score v tf.hw_ts = time_diff_ms v tf.hw_ts * 2 := score_of_future hfut
    have hpos : 0 < time_diff_ms v tp.hw_ts := time_diff_ms_pos_of_past hpast
    rw [hsp] at hle
    rw [hsf, ← heq] at hsc
    linarith [hsc ▸ hle]

/-- Witness for C8: a 10 ms-future trigger sits at index 0 ahead of a
10 ms-past trigger at index 1; the loop still returns a match and does not
return index 0. -/
theorem past_preference_witness :
    (findBestMatch 1000000000
      [{ trigger_id := 2, hw_ts := 1010000000, pub_ts := 1010000000 },
       { trigger_id := 1, hw_ts := 990000000, pub_ts := 990000000 }]).1.isSome ∧
    (findBestMatch 1000000000
      [{ trigger_id := 2, hw_ts := 1010000000, pub_ts := 1010000000 },
       { trigger_id := 1, hw_ts := 990000000, pub_ts := 990000000 }]).1 ≠ some 0 :=
  past_preference 1000000000
    [{ trigger_id := 2, hw_ts := 1010000000, pub_ts := 1010000000 },
     { trigger_id := 1, hw_ts := 990000000, pub_ts := 990000000 }] 1 0
    { trigger_id := 1, hw_ts := 990000000, pub_ts := 990000000 }
    { trigger_id := 2, hw_ts := 1010000000, pub_ts := 1010000000 }
    rfl rfl (by norm_num) (by norm_num)
    (by norm_num [time_diff_ms, time_diff_ns])
    (by norm_num [time_diff_ms, time_diff_ns])

/-- C9: whenever two eligible candidates have identical scores, the
selection never returns the higher queue index of the two — the best score
is only replaced under a strict less-than comparison, so among ties the
earliest-inserted candidate wins. -/
theorem tie_break_lowest_index (v : Nat) (q : List CameraTrigger) (i j m : Nat) (s : ℚ)
    (ti tj : CameraTrigger) (hi : q.get? i = some ti) (hj : q.get? j = some tj)
    (hij : i < j)
    (heligi : time_diff_ms v ti.hw_ts < 500) (heligj : time_diff_ms v tj.hw_ts < 500)
    (hscore : score v ti.hw_ts = score v tj.hw_ts)
    (h : findBestMatch v q = (some m, s)) : m ≠ j := by
  intro hmj
  subst hmj
  have h1 : (findBestMatch v q).1 = some m := by rw [h]
  rcases find_best_from_last v q 0 (none, f64_MAX) m h1 with ⟨hbad, _⟩ |
    ⟨i', t', hget', hm, _, hsc, _⟩
  · simp at hbad
  · have hii : m = i' := by omega
    subst hii
    rw [hj] at hget'
    have ht : tj = t' := Option.some.inj hget'
    subst ht
    have hmin := find_best_from_min_before v q 0 (none, f64_MAX)
      (by intro k hk; simp at hk) m h1 i ti hi (by omega) heligi
    rw [hsc, hscore] at hmin
    exact lt_irrefl _ hmin

/-- Witness for C9: two past triggers with the same hardware timestamp
score identically; the loop returns index 0, not index 1. -/
theorem tie_break_lowest_index_witness : (0 : Nat) ≠ 1 :=
  tie_break_lowest_index 1050000000
    [{ trigger_id := 1, hw_ts := 1000000000, pub_ts := 1000000000 },
     { trigger_id := 2, hw_ts := 1000000000, pub_ts := 1000000000 }] 0 1 0 50
    { trigger_id := 1, hw_ts := 1000000000, pub_ts := 1000000000 }
    { trigger_id := 2, hw_ts := 1000000000, pub_ts := 1000000000 }
    rfl rfl (by norm_num)
    (by norm_num [time_diff_ms, time_diff_ns])
    (by norm_num [time_diff_ms, time_diff_ns])
    (by norm_num [score, is_past_trigger, time_diff_ms, time_diff_ns])
    (by norm_num [findBestMatch, find_best_from, score, time_diff_ms, time_diff_ns,
      is_past_trigger, f64_MAX])

set_option maxRecDepth 8000 in
/-- C5: for every sequence of pushes into the pending-trigger queue the
length never exceeds 100, the queue after the pushes is exactly the last
100 pushed elements, and the evicted elements are exactly the pushed
prefix beyond the last 100, in FIFO order — instantiating the sequence at
any pushed prefix shows the (n−100)-th element is evicted exactly at the
n-th push.  Scenario D: 105 pushes with ids 1..105 leave ids 6..105
pending and report ids 1..5 evicted in order. -/
theorem queue_bound_fifo_eviction (es : List CameraTrigger) :
    (receive_all [] es).1.length ≤ 100 ∧
    receive_all [] es = (es.drop (es.length - 100), es.take (es.length - 100)) ∧
    (receive_all [] scenario_d).1 =
      (List.range 100).map (fun i => { trigger_id := i + 6, hw_ts := 0, pub_ts := 0 }) ∧
    (receive_all [] scenario_d).2 =
      (List.range 5).map (fun i => { trigger_id := i + 1, hw_ts := 0, pub_ts := 0 }) := by
  have hspec := receive_all_spec es [] (by simp)
  simp only [List.nil_append, List.length_nil, Nat.zero_add] at hspec
  refine ⟨?_, hspec, by decide, by decide⟩
  rw [hspec, List.length_drop]
  omega

set_option maxRecDepth 8000 in
/-- C2 counterexample: with a backlog of 101 historical triggers, the
pull-loop replay path leaves 101 pending triggers — the live push path
would have left 100 and evicted one — and the callback-variant replay path
inserts none of them, so the drained events are neither pushed through the
live overflow rule nor, in the callback variant, available for matching. -/
theorem history_replay_not_live_push_path :
    (drain_historical_subscriber [] history_backlog).1.length = 101 ∧
    ¬ (drain_historical_subscriber [] history_backlog).1.length ≤ 100 ∧
    (receive_all [] history_backlog).1.length = 100 ∧
    (drain_historical_capture [] history_backlog).1 = [] := by
  exact ⟨by decide, by decide, by decide, by decide⟩

/-- C2 amended: the pull-loop replay appends every drained event to the
back of the pending queue with a bare `push_back` and no overflow
eviction, counting the drained events — the replayed events are thereafter
ordinary queue entries — while the callback-variant replay only counts the
drained events and discards them without inserting any. -/
theorem history_replay_actual_behaviour (q es : List CameraTrigger) :
    drain_historical_subscriber q es = (q ++ es, es.length) ∧
    drain_historical_capture q es = (q, es.length) :=
  ⟨drain_historical_subscriber_spec es q, drain_historical_capture_spec es q⟩

/-- C1 (code-bug evidence, Scenario C of the specification): a FUTURE
trigger 10 ms ahead of the frame is matched, but `total_latency_ms` is the
`u64` wrap of `frame_ts_ns − hardware_timestamp_ns` divided by 10^6 — a
huge positive value, not the −10 required by the claim (a debug build
panics on the same subtraction instead of wrapping). -/
theorem future_match_latency_wraps_unsigned :
    (sync_frame_with_trigger 4990000000
      [{ trigger_id := 9, hw_ts := 5000000000, pub_ts := 5000000000 }]).1 =
      some { trigger_id := 9, hw_ts := 5000000000, v4l2_timestamp_ns := 4990000000,
             total_latency_ms := (18446744073699551616 : ℚ) / 1000000,
             v4l2_delay_ms := (18446744073699551616 : ℚ) / 1000000,
             score_ms := 20, cleaned_count := 0, is_past := false } ∧
    (18446744073699551616 : ℚ) / 1000000 ≠ (4990000000 - 5000000000 : ℚ) / 1000000 ∧
    0 < (18446744073699551616 : ℚ) / 1000000 := by
  refine ⟨?_, by norm_num, by norm_num⟩
  norm_num [sync_frame_with_trigger, findBestMatch, find_best_from, score,
    time_diff_ms, time_diff_ns, is_past_trigger, f64_MAX, u64_wrapping_sub,
    pop_front_n, List.eraseIdx]
